import Mathlib

/-!
Verification of the nnsmith operator-abstraction library, backend-execution
CLI and coverage-visualization tool.

Shallow embedding conventions:
* Python dicts that are iterated in insertion order are modelled as
  association lists in that order.
* Python exceptions are modelled with an explicit error type (`PyErr`); a
  function that can raise returns `Except PyErr _`, or threads a
  `Option PyErr` next to the mutated global state when partial mutations
  survive the raise.
* Symbolic z3 integers are concretized: the claims under verification only
  concern runs where every dimension/attribute is a concrete integer, so
  values are `ℤ` (or `ℕ` for indices/counts) and the symbolic-safe
  arithmetic helpers become exact integer arithmetic with SMT-LIB
  (Euclidean) integer division.
* Randomness (`random.randint`, `random.choice`, `random.choices`,
  `random.shuffle`) is modelled by passing the drawn values as explicit
  arguments, constrained by hypotheses to the support of the distribution.
-/

/-- Python exception kinds that the modelled code can raise.
`keyError` models a failed dict lookup, `valueError` an explicit
`raise ValueError`, `assertionError` a failed `assert`, and `sanityError`
a failed internal `SanityCheck` (fatal invariant violation, per the
error-signalling utilities); `constraintError` models a `ConstraintCheck`
failure (recoverable rejection of a random sample). -/
inductive PyErr where
  | keyError (msg : String)
  | valueError (msg : String)
  | assertionError (msg : String)
  | sanityError (msg : String)
  | constraintError (msg : String)
deriving DecidableEq, Repr

/-- Fatal error kinds: everything except a recoverable constraint violation
(per the spec's error taxonomy, internal/config errors are fatal while
constraint violations are expected control flow). -/
def PyErr.isFatal : PyErr → Bool
  | .constraintError _ => false
  | _ => true

/-- Modelled from the spec: the dtype registry (`nnsmith/abstract/dtype.py`
is not part of the excerpt). A closed enumeration of element types. -/
inductive DType where
  | float32
  | float64
  | int32
  | int64
  | bool
deriving DecidableEq, Repr

/-- Modelled from the spec: `DTYPE_ALL = {float32, float64, int32, int64, bool}`. -/
def DTYPE_ALL : List DType :=
  [DType.float32, DType.float64, DType.int32, DType.int64, DType.bool]

/-- Modelled from the spec: `DTYPE_FLOATS = {float32, float64}`. -/
def DTYPE_FLOATS : List DType := [DType.float32, DType.float64]

/-- Modelled from the spec: `DTYPE_INTS = {int32, int64}`. -/
def DTYPE_INTS : List DType := [DType.int32, DType.int64]

/-- Modelled from the spec: `DTYPE_NON_BOOLS = DTYPE_ALL - {bool}`. -/
def DTYPE_NON_BOOLS : List DType :=
  [DType.float32, DType.float64, DType.int32, DType.int64]

/-- Modelled from the spec: conversion from the canonical string name of a
dtype (used by the operator-skip configuration language). -/
def DType.from_str (s : String) : Except PyErr DType :=
  if s = ("float32") then .ok .float32
  else if s = ("float64") then .ok .float64
  else if s = ("int32") then .ok .int32
  else if s = ("int64") then .ok .int64
  else if s = ("bool") then .ok .bool
  else .error (.keyError s)

/-- Modelled from the spec: symbolic-safe addition (`nnsmith_add`); on
concrete operands it is ordinary integer addition. -/
def nnsmith_add (a b : ℤ) : ℤ := a + b

/-- Modelled from the spec: symbolic-safe subtraction (`nnsmith_sub`). -/
def nnsmith_sub (a b : ℤ) : ℤ := a - b

/-- Modelled from the spec: symbolic-safe multiplication (`nnsmith_mul`). -/
def nnsmith_mul (a b : ℤ) : ℤ := a * b

/-- Modelled from the spec: symbolic-safe division (`nnsmith_div`); the
spec requires solver-consistent integer division, i.e. SMT-LIB Euclidean
division, which is `Int.ediv`. -/
def nnsmith_div (a b : ℤ) : ℤ := Int.ediv a b

/-! ## Coverage summarization (`experiments/viz_merged_cov.py`) -/

/-- Per-file coverage record: the sets of covered line ids, branch ids and
function ids of one source file (`cov[fname]` in `cov_summerize`). -/
structure FileCov where
  lines : Finset ℕ
  branches : Finset String
  functions : Finset String
deriving DecidableEq

/-- One coverage snapshot: the `{n_model: ..., merged_cov: ...}` record
stored per timestamp; `merged_cov` is a dict from file name to `FileCov`,
modelled in iteration order. -/
structure CovSnapshot where
  n_model : ℕ
  merged_cov : List (String × FileCov)
deriving DecidableEq

/-- The inner loop of `cov_summerize`: sum the per-file line/branch/function
set sizes over all files not excluded by the pass filter. -/
def cov_file_sums (pass_filter : Option (String → Bool)) :
    List (String × FileCov) → ℕ × ℕ × ℕ
  | [] => (0, 0, 0)
  | (fname, fc) :: rest =>
    let (l, b, f) := cov_file_sums pass_filter rest
    match pass_filter with
    | some pf => if pf fname then (l, b, f)
                 else (l + fc.lines.card, b + fc.branches.card, f + fc.functions.card)
    | none => (l + fc.lines.card, b + fc.branches.card, f + fc.functions.card)

/-- The snapshot loop of `cov_summerize`: walks the time-ordered snapshots,
accumulating `model_total` and appending one `[time, model_total, cov]`
triple per snapshot to each series, stopping (after appending) once
`time > tlimit`. -/
def cov_summerize_loop (pass_filter : Option (String → Bool)) (tlimit : Option ℕ)
    (model_total : ℕ) :
    List (ℕ × CovSnapshot) →
      List (ℕ × ℕ × ℕ) × List (ℕ × ℕ × ℕ) × List (ℕ × ℕ × ℕ)
  | [] => ([], [], [])
  | (time, value) :: rest =>
    let mt := model_total + value.n_model
    let (line_cov, branch_cov, func_cov) := cov_file_sums pass_filter value.merged_cov
    let stop := match tlimit with
      | some t => decide (time > t)
      | none => false
    let (ls, bs, fs) :=
      if stop then ([], [], []) else cov_summerize_loop pass_filter tlimit mt rest
    ((time, mt, line_cov) :: ls, (time, mt, branch_cov) :: bs,
      (time, mt, func_cov) :: fs)

/-- Translation of `cov_summerize(data, pass_filter, tlimit)`: returns the
line/branch/function time series, each seeded with a `[0,0,0]` origin. -/
def cov_summerize (data : List (ℕ × CovSnapshot))
    (pass_filter : Option (String → Bool) := none) (tlimit : Option ℕ := none) :
    List (ℕ × ℕ × ℕ) × List (ℕ × ℕ × ℕ) × List (ℕ × ℕ × ℕ) :=
  let (ls, bs, fs) := cov_summerize_loop pass_filter tlimit 0 data
  ((0, 0, 0) :: ls, (0, 0, 0) :: bs, (0, 0, 0) :: fs)

/-- The two-snapshot input of the claim:
`{0: {n_model:1, merged_cov:{"f":{lines:{1},branches:{},functions:{}}}},
  10: {n_model:3, merged_cov:{"f":{lines:{1,2},branches:{"b1"},functions:{}}}}}`. -/
def c1_input : List (ℕ × CovSnapshot) :=
  [(0, { n_model := 1,
         merged_cov := [(("f"), { lines := {1}, branches := ∅, functions := ∅ })] }),
   (10, { n_model := 3,
          merged_cov := [(("f"), { lines := {1, 2}, branches := {("b1")}, functions := ∅ })] })]

/-! ## Backend-execution CLI (`nnsmith/backend_executor.py`) -/

/-- The executors that `BackendCreator.__call__` can construct, including
the pathological stubs defined next to it (`CrashExecutor`, `HangExecutor`,
`DummyExecutor`). -/
inductive Executor where
  | ortExecutor (optLevel : ℕ)
  | tvmExecutorDebug
  | tvmExecutorLLVM
  | tvmExecutorCUDA
  | xlaExecutor
  | trtBackend
  | crashExecutor
  | hangExecutor
  | dummyExecutor
deriving DecidableEq, Repr

/-- Translation of `BackendCreator.NAME_MAP` (dict in insertion order). -/
def BackendCreator.NAME_MAP : List (String × String) :=
  [(("ort"), ("ORTExecutor")),
   (("ort-debug"), ("ORTExecutorDebug")),
   (("tvm-llvm"), ("TVMExecutorLLVM")),
   (("tvm-debug"), ("TVMExecutorDebug")),
   (("tvm-cuda"), ("TVMExecutor")),
   (("xla"), ("XLAExecutor")),
   (("trt"), ("TRTBackend"))]

/-- Translation of `BackendCreator.__init__`: stores the name and looks the
name up in `NAME_MAP` (`self.dump_name = self.NAME_MAP[name]`), which
raises `KeyError` when the name is absent. -/
def BackendCreator.init (name : String) : Except PyErr String :=
  match (BackendCreator.NAME_MAP.lookup name) with
  | some dump_name => .ok dump_name
  | none => .error (.keyError name)

/-- Translation of `BackendCreator.__call__`: dispatches on the stored name
over the explicit if/elif chain (note it has branches for the stubs
`crash` and `hang` but none for `dummy`), raising `ValueError` otherwise. -/
def BackendCreator.call (name : String) : Except PyErr Executor :=
  if name = ("ort") then .ok (.ortExecutor 1)
  else if name = ("ort-debug") then .ok (.ortExecutor 0)
  else if name = ("tvm-debug") then .ok .tvmExecutorDebug
  else if name = ("tvm-llvm") then .ok .tvmExecutorLLVM
  else if name = ("tvm-cuda") then .ok .tvmExecutorCUDA
  else if name = ("xla") then .ok .xlaExecutor
  else if name = ("trt") then .ok .trtBackend
  else if name = ("crash") then .ok .crashExecutor
  else if name = ("hang") then .ok .hangExecutor
  else .error (.valueError name)

/-- Constructing and invoking the factory, `BackendCreator(name)()`:
`__init__` runs first (and may raise `KeyError`), then `__call__`. -/
def BackendCreator.make (name : String) : Except PyErr Executor := do
  let _ ← BackendCreator.init name
  BackendCreator.call name

/-- The CLI arguments of `backend_executor.py` that determine the test
inputs and the comparison oracle. Inputs and outputs are abstract data
(modelled as `ℕ` tokens); backends are named by strings. -/
structure CLIArgs where
  backend : String
  oracle : Option (ℕ × ℕ)
  raw_input : Option ℕ
  cmp_with : Option String
deriving DecidableEq, Repr

/-- Step 1 of `__main__`: determine `test_inputs` and the initial
`oracle_outputs` with priority oracle-file > raw-input file > generated
input (`gen_inputs` stands for `input_gen.gen_one_input_rngs(...)`). -/
def cli_step1 (args : CLIArgs) (gen_inputs : ℕ) : ℕ × Option ℕ :=
  match args.oracle with
  | some (inp, out) => (inp, some out)
  | none =>
    match args.raw_input with
    | some inp => (inp, none)
    | none => (gen_inputs, none)

/-- Step 2 of `__main__` (reference backend): whenever `--cmp_with` is
given, the reference backend is constructed and run on `test_inputs` and
its outputs are assigned to `oracle_outputs`, overwriting step 1's value.
`predict b i` stands for `BackendCreator(b)().predict(model, i)`. -/
def cli_oracle_outputs (args : CLIArgs) (gen_inputs : ℕ)
    (predict : String → ℕ → ℕ) : Option ℕ :=
  let (test_inputs, oracle_outputs) := cli_step1 args gen_inputs
  match args.cmp_with with
  | some ref => some (predict ref test_inputs)
  | none => oracle_outputs

/-- Step 3 of `__main__`: when `oracle_outputs` is available the CLI calls
`difftest.assert_allclose(this_outputs, oracle_outputs, ...)`; this
function returns the `(actual, expected)` pair handed to that comparison,
or `none` when no comparison happens. -/
def cli_comparison (args : CLIArgs) (gen_inputs : ℕ)
    (predict : String → ℕ → ℕ) : Option (ℕ × ℕ) :=
  let (test_inputs, _) := cli_step1 args gen_inputs
  let this_outputs := predict args.backend test_inputs
  match cli_oracle_outputs args gen_inputs predict with
  | some expected => some (this_outputs, expected)
  | none => none

/-! ## `random_group` (`nnsmith/abstract/op.py`) -/

/-- Translation of `random_group(n, k)`. The `k-1` values drawn by
`random.randint(0, n-k)` are the explicit argument `draws`, and the result
of `random.shuffle(perm)` over `list(range(n))` is the explicit argument
`perm`. The drawn values are sorted, bracketed by `0` and `n-k`, and group
`i` is `[perm[j] for j in range(xs[i]+i, xs[i+1]+i+1)]`. -/
def random_group (n k : ℕ) (draws perm : List ℕ) : List (List ℕ) :=
  let xs : List ℕ := 0 :: (draws.mergeSort (fun a b => a ≤ b) ++ [n - k])
  (List.range k).map (fun i =>
    (List.range' (xs.getD i 0 + i) ((xs.getD (i + 1) 0 + i + 1) - (xs.getD i 0 + i))).map
      (fun j => perm.getD j 0))

/-! ## `Slice` (`nnsmith/abstract/op.py`) -/

/-- Translation of `Slice.INT_MAX`, the open-ended end sentinel. -/
def Slice.INT_MAX : ℤ := 2 ^ 63 - 1

/-- Translation of `Slice._type_transfer` for a resolved instance: the
output shape is the input shape with the size at the chosen axis replaced
by `((end - start) + (step - 1)) / step` (symbolic-safe division), where
`end` is first replaced by the input size at that axis when it equals the
sentinel. -/
def Slice.type_transfer (shape : List ℤ) (axis : ℕ) (start stop step : ℤ) :
    List ℤ :=
  let dim := shape.getD axis 0
  let stopv := if stop = Slice.INT_MAX then dim else stop
  shape.set axis
    (nnsmith_div (nnsmith_add (nnsmith_sub stopv start) (nnsmith_sub step 1)) step)

/-- Translation of `Slice._requires` for a resolved instance: the list of
legality constraints it returns. `start` is always symbolic, so its range
constraint is always emitted; the `end` constraints are emitted only when
`end` is still symbolic, i.e. exactly when it was not concretized to the
sentinel; `step` is constrained to `[1, dim]`. -/
def Slice.requires (shape : List ℤ) (axis : ℕ) (start stop step : ℤ) :
    List Prop :=
  let dim := shape.getD axis 0
  [0 ≤ start ∧ start ≤ dim - 1] ++
    (if stop = Slice.INT_MAX then [] else [(0 ≤ stop ∧ stop ≤ dim), start < stop]) ++
    [1 ≤ step, step ≤ dim]

/-! ## Defensive copying in the public entry points (`check_shape_fn` /
`check_require_fn`)

The callee may mutate the tensor objects it is handed (in place, through
the list), so object identity matters; the store of tensor objects is
modelled explicitly. A tensor object is a cell in a heap, addressed by a
natural number; an operator's internal rule receives the contents of the
cells handed to it and reports both the final contents of those cells
(its in-place mutations) and its returned value. -/

/-- A symbolic tensor's contents: shape plus dtype (`AbsTensor`). -/
structure AbsTensorData where
  shape : List ℤ
  dtype : DType
deriving DecidableEq, Repr

/-- The heap of tensor objects: cell contents plus the next fresh address.
Live objects are the addresses below `next`. -/
structure Heap where
  data : ℕ → AbsTensorData
  next : ℕ

/-- Modelled from the spec: `AbsTensor.deepcopy` (from the symbolic tensor
type, whose module is not part of the excerpt) allocates a fresh object
holding a deep copy of the shape sequence and elements. `allocCopies`
performs `[s.deepcopy() for s in input_shapes]`, returning the new heap
and the fresh addresses in order. -/
def allocCopies (h : Heap) : List ℕ → Heap × List ℕ
  | [] => (h, [])
  | id :: rest =>
    let h1 : Heap := ⟨Function.update h.data h.next (h.data id), h.next + 1⟩
    ((allocCopies h1 rest).1, h.next :: (allocCopies h1 rest).2)

/-- Write the rule's final contents back into the cells that were handed to
it (the callee's in-place mutations land on those cells). -/
def writeAll (h : Heap) : List ℕ → List AbsTensorData → Heap
  | [], _ => h
  | _, [] => h
  | id :: ids, v :: vs => writeAll ⟨Function.update h.data id v, h.next⟩ ids vs

/-- An operator's internal rule (`_type_transfer` or `_requires`): from the
contents of the tensors it is handed, it produces the final contents of
those same tensors (its in-place mutations) and its result. The result
type is abstract (`ρ`): a list of output tensors for `_type_transfer`, a
list of constraints for `_requires`. -/
def InternalRule (ρ : Type) : Type := List AbsTensorData → List AbsTensorData × ρ

/-- Translation of the `check_shape_fn` wrapper (`checked_type_transfer`):
assert the input count matches `inp_ranks`, hand defensive copies to the
operator's own rule, assert the output count matches `out_ranks`, and
return the outputs. The returned heap reflects all mutations performed up
to the point of a raise (Python state survives the exception). -/
def wrapper_check_shape_fn (inp_ranks out_ranks : ℕ)
    (rule : InternalRule (List AbsTensorData)) (h : Heap) (ids : List ℕ) :
    Heap × Except PyErr (List AbsTensorData) :=
  if ids.length ≠ inp_ranks then
    (h, .error (.sanityError ("input count mismatch")))
  else
    let hc := allocCopies h ids
    let mr := rule (hc.2.map hc.1.data)
    let h2 := writeAll hc.1 hc.2 mr.1
    if mr.2.length ≠ out_ranks then
      (h2, .error (.sanityError ("output count mismatch")))
    else
      (h2, .ok mr.2)

/-- Translation of the `check_require_fn` wrapper (`checked_requires`):
assert the input count, then hand defensive copies to the operator's own
rule. Constraints are abstract tokens (`ℕ`). -/
def wrapper_check_require_fn (inp_ranks : ℕ)
    (rule : InternalRule (List ℕ)) (h : Heap) (ids : List ℕ) :
    Heap × Except PyErr (List ℕ) :=
  if ids.length ≠ inp_ranks then
    (h, .error (.sanityError ("input count mismatch")))
  else
    let hc := allocCopies h ids
    let mr := rule (hc.2.map hc.1.data)
    let h2 := writeAll hc.1 hc.2 mr.1
    (h2, .ok mr.2)

/-! ## `Reshape._requires` group-count selection (`nnsmith/abstract/op.py`) -/

/-- Translation of the `NNSMITH_GRES` dispatch at the top of
`Reshape._requires`: `src_len`/`dst_len` are the input rank and the target
arity, each bumped to 1 for a scalar; `"5"` forces one group, `"3"` takes
`min(src_len, dst_len)` groups, `"4"` draws `ng` by `random.choices` over
`range(1, ub+1)` with weights `2^i` (the drawn value is the explicit
argument `choice`), and any other value raises `ValueError`. -/
def reshape_gres_ng (gres : String) (src_ndims dst_ndims choice : ℕ) :
    Except PyErr ℕ :=
  let src_len := if src_ndims = 0 then 1 else src_ndims
  let dst_len := if dst_ndims = 0 then 1 else dst_ndims
  if gres = ("5") then .ok 1
  else if gres = ("3") then .ok (min src_len dst_len)
  else if gres = ("4") then .ok choice
  else .error (.valueError gres)

/-! ## Operator catalog and `config_skip_op` (`nnsmith/abstract/op.py`) -/

/-- One registered operator type: its class name, its input-dtype whitelist
(`in_dtypes`, a list of dtype combinations), and its global disable flag
(`_skip`). -/
structure OpEntry where
  name : String
  in_dtypes : List (List DType)
  skip : Bool
deriving DecidableEq, Repr

/-- The comprehension `[(i,) for i in ds]`. -/
def dt_singles (ds : List DType) : List (List DType) := ds.map (fun i => [i])

/-- The comprehension `[(i, i) for i in ds]`. -/
def dt_pairs (ds : List DType) : List (List DType) := ds.map (fun i => [i, i])

/-- The comprehension `[(i, i, i) for i in ds]`. -/
def dt_triples (ds : List DType) : List (List DType) := ds.map (fun i => [i, i, i])

/-- The comprehension `[(i, i, i, i) for i in ds]`. -/
def dt_quads (ds : List DType) : List (List DType) := ds.map (fun i => [i, i, i, i])

/-- The comprehension `[(i, i, i, i, i) for i in ds]`. -/
def dt_quints (ds : List DType) : List (List DType) :=
  ds.map (fun i => [i, i, i, i, i])

/-- An enabled registry entry. -/
def opE (name : String) (dts : List (List DType)) : OpEntry :=
  { name := name, in_dtypes := dts, skip := false }

/-- Translation of `ALL_OP_TYPES`: every class registered by the `leaf`
decorator (or the dynamic `leaf(type(...))` calls), in module-execution
order, paired with its `in_dtypes` whitelist; `_skip` starts `False`
everywhere. The `LegacyConstant*`, `Input`, `Constant` and `Placeholder`
classes carry no `leaf` decoration and are therefore absent. -/
def ALL_OP_TYPES : List OpEntry :=
  [opE ("Where") (DTYPE_NON_BOOLS.map (fun i => [DType.bool, i, i])),
   opE ("Add") (dt_pairs DTYPE_NON_BOOLS),
   opE ("Sub") (dt_pairs DTYPE_NON_BOOLS),
   opE ("Mul") (dt_pairs DTYPE_NON_BOOLS),
   opE ("Max") (dt_pairs DTYPE_NON_BOOLS),
   opE ("Min") (dt_pairs DTYPE_NON_BOOLS),
   opE ("Equal") (dt_pairs DTYPE_ALL),
   opE ("Greater") (dt_pairs DTYPE_ALL),
   opE ("Less") (dt_pairs DTYPE_ALL),
   opE ("And") (dt_pairs [DType.bool]),
   opE ("Or") (dt_pairs [DType.bool]),
   opE ("Xor") (dt_pairs [DType.bool]),
   opE ("Div") (dt_pairs DTYPE_NON_BOOLS),
   opE ("Pow") (dt_pairs DTYPE_FLOATS),
   opE ("GELU") (dt_singles DTYPE_FLOATS),
   opE ("LeakyReLU") (dt_singles DTYPE_FLOATS),
   opE ("PReLU") (dt_singles [DType.float32]),
   opE ("Sigmoid") (dt_singles DTYPE_FLOATS),
   opE ("Sin") (dt_singles DTYPE_FLOATS),
   opE ("Cos") (dt_singles DTYPE_FLOATS),
   opE ("Asin") (dt_singles DTYPE_FLOATS),
   opE ("Acos") (dt_singles DTYPE_FLOATS),
   opE ("Tan") (dt_singles DTYPE_FLOATS),
   opE ("Atan") (dt_singles DTYPE_FLOATS),
   opE ("Abs") (dt_singles DTYPE_NON_BOOLS),
   opE ("ReLU") (dt_singles DTYPE_FLOATS),
   opE ("Ceil") (dt_singles DTYPE_FLOATS),
   opE ("Floor") (dt_singles DTYPE_FLOATS),
   opE ("Clip") (dt_singles DTYPE_NON_BOOLS),
   opE ("Round") (dt_singles DTYPE_FLOATS),
   opE ("Sqrt") (dt_singles DTYPE_FLOATS),
   opE ("Log2") (dt_singles DTYPE_FLOATS),
   opE ("Neg") (dt_singles DTYPE_NON_BOOLS),
   opE ("Softmax") (dt_singles DTYPE_FLOATS),
   opE ("MaxPool2d") (dt_singles DTYPE_FLOATS),
   opE ("AvgPool2d") (dt_singles DTYPE_FLOATS),
   opE ("Slice") (dt_singles DTYPE_ALL),
   opE ("ConstPad") (dt_singles DTYPE_FLOATS),
   opE ("ReplicatePad") (dt_singles DTYPE_FLOATS),
   opE ("ReflectPad") (dt_singles DTYPE_FLOATS),
   opE ("ExpandLast1") (dt_singles DTYPE_ALL),
   opE ("ExpandLast2") (dt_singles DTYPE_ALL),
   opE ("ExpandLast3") (dt_singles DTYPE_ALL),
   opE ("ExpandLast4") (dt_singles DTYPE_ALL),
   opE ("BatchNorm2d") (dt_singles [DType.float32]),
   opE ("Conv1d") (dt_singles [DType.float32]),
   opE ("NCHWConv2d") (dt_singles [DType.float32]),
   opE ("Reshape") (dt_singles DTYPE_ALL),
   opE ("Flatten") (dt_singles DTYPE_ALL),
   opE ("Transpose") (dt_singles DTYPE_ALL),
   opE ("NearestInterp") (dt_singles DTYPE_FLOATS),
   opE ("LinearInterp") (dt_singles DTYPE_FLOATS),
   opE ("BilinearInterp") (dt_singles DTYPE_FLOATS),
   opE ("BicubicInterp") (dt_singles DTYPE_FLOATS),
   opE ("TrilinearInterp") (dt_singles DTYPE_FLOATS),
   opE ("Squeeze") (dt_singles DTYPE_ALL),
   opE ("ReduceSum") (dt_singles [DType.float32, DType.float64, DType.int64]),
   opE ("ReduceMin") (dt_singles DTYPE_NON_BOOLS),
   opE ("ReduceMax") (dt_singles DTYPE_NON_BOOLS),
   opE ("ReduceMean") (dt_singles DTYPE_FLOATS),
   opE ("ArgMin") (dt_singles DTYPE_FLOATS),
   opE ("ArgMax") (dt_singles DTYPE_FLOATS),
   opE ("Tril") (dt_singles DTYPE_ALL),
   opE ("Triu") (dt_singles DTYPE_ALL),
   opE ("Linear") (dt_singles [DType.float32]),
   opE ("Concat1") (dt_singles DTYPE_ALL),
   opE ("Concat2") (dt_pairs DTYPE_ALL),
   opE ("Concat3") (dt_triples DTYPE_ALL),
   opE ("Concat4") (dt_quads DTYPE_ALL),
   opE ("Concat5") (dt_quints DTYPE_ALL),
   opE ("CastF32") (dt_singles DTYPE_ALL),
   opE ("CastF64") (dt_singles DTYPE_ALL),
   opE ("CastI32") (dt_singles DTYPE_ALL),
   opE ("CastI64") (dt_singles DTYPE_ALL),
   opE ("CastBool") (dt_singles DTYPE_ALL),
   opE ("Gemm") (dt_triples DTYPE_NON_BOOLS)]

/-- Fuel-driven core of shell-pattern matching (structural recursion on
the fuel so that it evaluates inside the kernel; the fuel is always chosen
large enough that the `0` case is never reached). -/
def fnmatch_fuel : ℕ → List Char → List Char → Bool
  | 0, _, _ => false
  | fuel + 1, ps, cs =>
    match ps, cs with
    | [], [] => true
    | ('*' :: ps2), [] => fnmatch_fuel fuel ps2 []
    | ('*' :: ps2), (c :: cs2) =>
      fnmatch_fuel fuel ps2 (c :: cs2) || fnmatch_fuel fuel ('*' :: ps2) cs2
    | ('?' :: ps2), (_ :: cs2) => fnmatch_fuel fuel ps2 cs2
    | (p :: ps2), (c :: cs2) => p == c && fnmatch_fuel fuel ps2 cs2
    | (_ :: _), [] => false
    | [], (_ :: _) => false

/-- Translation of `fnmatch` shell-style pattern matching on lowered char
lists, restricted to the `*` and `?` metacharacters (the only ones shell
patterns in this code base can contain; `[...]` classes are unused). Every
recursion step consumes at least one pattern or subject character, so
`|ps| + |cs| + 1` fuel always suffices. -/
def fnmatch_one (ps cs : List Char) : Bool :=
  fnmatch_fuel (ps.length + cs.length + 1) ps cs

/-- Splitting a character list on a separator character, mirroring
Python's `str.split(sep)` (empty fields are kept; the empty string yields
one empty field). Defined structurally so that it evaluates in the kernel,
unlike the built-in string splitter. -/
def splitChar (sep : Char) : List Char → List (List Char)
  | [] => [[]]
  | c :: cs =>
    let r := splitChar sep cs
    if c = sep then [] :: r
    else
      match r with
      | [] => [[c]]
      | h :: t => (c :: h) :: t

/-- String split on a single-character separator (all separators used by
`config_skip_op` are single characters). -/
def str_split (sep : Char) (s : String) : List String :=
  (splitChar sep s.data).map (fun l => String.mk l)

/-- Kernel-evaluable translation of `str.lower()`. -/
def str_lower (s : String) : List Char := s.data.map Char.toLower

/-- Translation of `SKIP_FOR_BKEND`: the fixed per-backend skip lists. -/
def SKIP_FOR_BKEND : List (String × List String) :=
  [(("trt"), [("Xor"), ("Equal:bool,bool"), ("Gemm:int32,int32,int32"), ("LegacyConstant*")]),
   (("tvm"), []), (("tvm-cuda"), []), (("ort"), []), (("ort-cpu"), []),
   (("xla"), []), (("tch"), []), (("dummy"), [])]

/-- The first phase of `config_skip_op`: split the configuration on commas
and expand every `backend:<name>` token through `SKIP_FOR_BKEND` (a missing
backend key raises `KeyError`). -/
def build_skip_list (tokens : List String) : Except PyErr (List String) :=
  tokens.foldlM (fun acc tok =>
    if (("backend:").data.isPrefixOf tok.data) then
      match (SKIP_FOR_BKEND.lookup (String.mk (tok.data.drop 8))) with
      | some l => .ok (acc ++ l)
      | none => .error (.keyError tok)
    else .ok (acc ++ [tok])) []

/-- Application of one parsed skip token to the registry, mirroring the
`for op_name in fnmatch.filter(...)` loop: every operator whose lowered
name matches the lowered pattern is disabled (`comb = none`) or has the
combination removed from its whitelist after the `assert skip_comb in
op.in_dtypes` (`comb = some c`); a failed assert stops processing, keeping
all mutations made so far. -/
def apply_pattern (pattern : String) (comb : Option (List DType)) :
    List OpEntry → List OpEntry × Option PyErr
  | [] => ([], none)
  | e :: rest =>
    if fnmatch_one (str_lower pattern) (str_lower e.name) then
      match comb with
      | none =>
        let (rest2, err) := apply_pattern pattern comb rest
        ({ e with skip := true } :: rest2, err)
      | some c =>
        if c ∈ e.in_dtypes then
          let (rest2, err) := apply_pattern pattern comb rest
          ({ e with in_dtypes := e.in_dtypes.erase c } :: rest2, err)
        else (e :: rest, some (.assertionError ("combination not found in in_dtypes")))
    else
      let (rest2, err) := apply_pattern pattern comb rest
      (e :: rest2, err)

/-- Processing of one skip token: an optional `:`-separated dtype
combination is parsed with `DType.from_str` (over the comma-split parts)
and the name pattern is applied to the registry. -/
def process_token (tok : String) (reg : List OpEntry) :
    List OpEntry × Option PyErr :=
  match str_split (Char.ofNat 58) tok with
  | [p] => apply_pattern p none reg
  | [p, c] =>
    match ((str_split (Char.ofNat 44) c).mapM DType.from_str) with
    | .ok comb => apply_pattern p (some comb) reg
    | .error e => (reg, some e)
  | _ => (reg, some (.valueError tok))

/-- Translation of `config_skip_op(skip_config)` acting on the process-wide
registry: the configuration is comma-split, backend tokens are expanded,
and each token is applied in order; an exception aborts the remaining
tokens but keeps all mutations already made (Python globals survive the
raise). Returns the final registry and the raised exception, if any. -/
def config_skip_op (skip_config : String) (reg : List OpEntry) :
    List OpEntry × Option PyErr :=
  match build_skip_list (str_split (Char.ofNat 44) skip_config) with
  | .error e => (reg, some e)
  | .ok skip =>
    skip.foldl (fun acc tok =>
      match acc with
      | (r, some e) => (r, some e)
      | (r, none) => process_token tok r) (reg, none)

/-! ## `Pool2d` (`nnsmith/abstract/op.py`) -/

/-- Modelled from the spec: `AbsTensor.nelement()`, the product of the
dimensions accumulated with the symbolic-safe multiply. -/
def nelement (shape : List ℤ) : ℤ := shape.foldl nnsmith_mul 1

/-- Translation of `FLOPS_LIM` under the default `NNSMITH_FLOPS_LIM=auto`. -/
def FLOPS_LIM : ℤ := 2 ^ 30

/-- Translation of `Pool2d._type_transfer`: batch and channel dimensions
are copied; each spatial output size is
`(in - kernel + 2*padding) / stride + 1` with symbolic-safe division. -/
def Pool2d.type_transfer (shape : List ℤ)
    (kernel_h_size kernel_w_size stride padding : ℤ) : List ℤ :=
  [shape.getD 0 0,
   shape.getD 1 0,
   nnsmith_div (nnsmith_add (nnsmith_sub (shape.getD 2 0) kernel_h_size)
     (2 * padding)) stride + 1,
   nnsmith_div (nnsmith_add (nnsmith_sub (shape.getD 3 0) kernel_w_size)
     (2 * padding)) stride + 1]

/-- Translation of `Pool2d.flops`: output element count times both kernel
sizes. -/
def Pool2d.flops (shape : List ℤ)
    (kernel_h_size kernel_w_size stride padding : ℤ) : ℤ :=
  nnsmith_mul
    (nnsmith_mul (nelement (Pool2d.type_transfer shape kernel_h_size kernel_w_size stride padding))
      kernel_h_size)
    kernel_w_size

/-- Translation of `Pool2d._requires`: the constraint list it returns,
with the FLOPs cap included (default `NNSMITH_Z3_CONS_FLOPS=on`). -/
def Pool2d.requires (shape : List ℤ)
    (kernel_h_size kernel_w_size stride padding : ℤ) : List Prop :=
  [1 ≤ kernel_h_size,
   1 ≤ kernel_w_size,
   kernel_h_size ≤ nnsmith_add (shape.getD 2 0) (2 * padding),
   kernel_w_size ≤ nnsmith_add (shape.getD 3 0) (2 * padding),
   1 ≤ stride,
   0 ≤ padding,
   padding ≤ 255,
   padding ≤ nnsmith_div kernel_h_size 2,
   padding ≤ nnsmith_div kernel_w_size 2,
   nnsmith_mul kernel_h_size kernel_w_size < 10000,
   Pool2d.flops shape kernel_h_size kernel_w_size stride padding ≤ FLOPS_LIM]

/-! ## `Clip` (`nnsmith/abstract/op.py`) -/

/-- The mutable attribute state of a `Clip` instance: the advertised
bounds and the lazily resolved bias. Python's float literals `0.5`/`1.5`
are exactly representable, so exact rationals model them faithfully. -/
structure ClipState where
  min : ℚ
  max : ℚ
  bias : Option ℚ
deriving DecidableEq, Repr

/-- Translation of `Clip.__init__`: `min = -1`, `max = 1`, `bias = None`. -/
def Clip.init : ClipState := { min := -1, max := 1, bias := none }

/-- Translation of `Clip._type_transfer`: on the first call (bias still
`None`) the bias is resolved from the input dtype (`0.5` for floating
inputs, `0` otherwise) and folded into the bounds once; afterwards the
state is left untouched. The output tensor is the input (element-wise
unary shape transfer). -/
def Clip.type_transfer (st : ClipState) (input : AbsTensorData) :
    ClipState × AbsTensorData :=
  match st.bias with
  | none =>
    let b : ℚ := if input.dtype ∈ DTYPE_FLOATS then 1 / 2 else 0
    ({ min := st.min - b, max := st.max + b, bias := some b }, input)
  | some _ => (st, input)

/-! ## Concrete fixtures used by the counterexamples and witnesses -/

/-- A concrete CLI invocation: an oracle file (pre-paired input `0`,
expected output `5`) together with a reference backend (`--cmp_with ort`). -/
def c2_args : CLIArgs :=
  { backend := ("tvm-llvm"), oracle := some (0, 5), raw_input := none,
    cmp_with := some ("ort") }

/-- A concrete backend behavior: the reference backend `ort` answers `100`
on every input, any other backend answers `7`. -/
def c2_predict (b : String) (_inp : ℕ) : ℕ := if b = ("ort") then 100 else 7

/-- A concrete heap with one live tensor object at address `0`. -/
def c6_heap : Heap := { data := fun _ => { shape := [7], dtype := DType.float32 }, next := 1 }

/-- A concrete internal shape rule that mutates every tensor handed to it
in place (prepending a dimension) and returns the mutated tensors. -/
def c6_rule_shape : InternalRule (List AbsTensorData) :=
  fun ts => (ts.map (fun t => { shape := 0 :: t.shape, dtype := t.dtype }), ts)

/-- A concrete internal requirement rule that also mutates its inputs in
place and returns a constraint token list. -/
def c6_rule_req : InternalRule (List ℕ) :=
  fun ts => (ts.map (fun t => { shape := [], dtype := t.dtype }), [42])

/-! ## Theorems -/

/-- C1 (counterexample): on the two-snapshot input, `cov_summerize` does
not return the claimed line series `[[0,0,0],[0,1,1],[10,3,2]]`; the
running `model_total` after the second snapshot is `1 + 3 = 4`, not `3`. -/
theorem cov_summerize_two_snapshot_counterexample :
    ¬ ((cov_summerize c1_input none none).1
        = [(0, 0, 0), (0, 1, 1), (10, 3, 2)]) := by
  decide

/-- C1 (amended): on the two-snapshot input and with no pass filter or
time limit, `cov_summerize` returns the line-coverage series
`[[0,0,0],[0,1,1],[10,4,2]]`: a leading origin point, then one point per
snapshot carrying the running sum of the snapshots' `n_model` fields and
that snapshot's own per-file coverage sum. -/
theorem cov_summerize_two_snapshot :
    (cov_summerize c1_input none none).1
      = [(0, 0, 0), (0, 1, 1), (10, 4, 2)] := by
  decide

/-- C2 (counterexample): with an oracle file supplying expected output `5`
and `--cmp_with ort` also given, the expected outputs used for the
comparison are the reference backend's outputs (`100`), not the ones
loaded from the oracle file. -/
theorem cli_oracle_overwritten_counterexample :
    c2_args.oracle = some (0, 5) ∧
    cli_oracle_outputs c2_args 0 c2_predict ≠ some 5 := by
  decide

/-- C2 (amended): the reference backend named by `--cmp_with` is run (and
its outputs become the comparison's expected outputs) whenever `--cmp_with`
is supplied, even when an oracle file was given; the oracle file's outputs
are used only when `--cmp_with` is absent. -/
theorem cli_expected_outputs_spec (args : CLIArgs) (gen : ℕ)
    (predict : String → ℕ → ℕ) :
    (∀ ref, args.cmp_with = some ref →
      cli_oracle_outputs args gen predict
        = some (predict ref (cli_step1 args gen).1)) ∧
    (args.cmp_with = none → ∀ inp out, args.oracle = some (inp, out) →
      cli_oracle_outputs args gen predict = some out) := by
  constructor
  · intro ref href
    simp [cli_oracle_outputs, href]
  · intro hnone inp out horacle
    simp [cli_oracle_outputs, hnone, cli_step1, horacle]

/-- C2 (witness): the amended statement applied to the concrete invocation
`c2_args`, whose `--cmp_with` is `ort`. -/
theorem cli_expected_outputs_spec_witness :
    c2_args.cmp_with = some ("ort") ∧
    cli_oracle_outputs c2_args 0 c2_predict
      = some (c2_predict ("ort") (cli_step1 c2_args 0).1) :=
  ⟨rfl, (cli_expected_outputs_spec c2_args 0 c2_predict).1 ("ort") rfl⟩

/-- C3 (code behavior at the failing inputs): constructing the factory on
any of the three stub names raises `KeyError` inside `__init__` because
`NAME_MAP` lacks them, even though `__call__` itself has working branches
for `crash` and `hang`; the `dummy` stub has no `__call__` branch at all
and would raise `ValueError` even if construction succeeded. -/
theorem backend_creator_stub_names_key_error :
    BackendCreator.make ("crash") = .error (.keyError ("crash")) ∧
    BackendCreator.make ("hang") = .error (.keyError ("hang")) ∧
    BackendCreator.make ("dummy") = .error (.keyError ("dummy")) ∧
    BackendCreator.call ("crash") = .ok Executor.crashExecutor ∧
    BackendCreator.call ("hang") = .ok Executor.hangExecutor ∧
    BackendCreator.call ("dummy") = .error (.valueError ("dummy")) :=
  ⟨rfl, rfl, rfl, rfl, rfl, rfl⟩

/-- C8 (counterexample): after `config_skip_op("Xor,Gemm:int32,int32,int32")`
the `(int32,int32,int32)` combination is still present in `Gemm`'s
input-dtype whitelist — the configuration string is comma-split before
tokens are parsed, so the `Gemm` token degrades to `Gemm:int32` and its
1-element combination fails the containment assert. -/
theorem config_skip_op_xor_gemm_counterexample :
    ¬ (∀ e ∈ (config_skip_op ("Xor,Gemm:int32,int32,int32") ALL_OP_TYPES).1,
        e.name = ("Gemm") →
          [DType.int32, DType.int32, DType.int32] ∉ e.in_dtypes) := by
  decide

/-- C8 (amended): `config_skip_op("Xor,Gemm:int32,int32,int32")` sets
`Xor`'s global disable flag and then stops with an `AssertionError` while
processing the comma-split fragment `Gemm:int32` (the 1-element combination
`(int32,)` is not in `Gemm`'s whitelist); no combination is removed from
`Gemm`'s whitelist and every other operator's whitelist and disable flag
are unchanged. -/
theorem config_skip_op_xor_gemm :
    config_skip_op ("Xor,Gemm:int32,int32,int32") ALL_OP_TYPES
      = (ALL_OP_TYPES.map (fun e =>
          if e.name = ("Xor") then { e with skip := true } else e),
         some (.assertionError ("combination not found in in_dtypes"))) := by
  decide

/-- C10: a fresh `Clip` advertises bounds `[-1, 1]`; its first
shape-inference call resolves the bias from the input dtype and widens the
bounds once — to `[-1.5, 1.5]` for a floating input, leaving `[-1, 1]`
(bias `0`) for an integer input — and every call on an instance whose bias
is already resolved leaves the state unchanged. -/
theorem clip_bounds_resolve_once :
    (Clip.init.min = -1 ∧ Clip.init.max = 1 ∧ Clip.init.bias = none) ∧
    (∀ t : AbsTensorData, t.dtype ∈ DTYPE_FLOATS →
      (Clip.type_transfer Clip.init t).1
        = { min := -(3 / 2 : ℚ), max := 3 / 2, bias := some (1 / 2) }) ∧
    (∀ t : AbsTensorData, t.dtype ∈ DTYPE_INTS →
      (Clip.type_transfer Clip.init t).1
        = { min := -1, max := 1, bias := some 0 }) ∧
    (∀ st : ClipState, ∀ b : ℚ, st.bias = some b →
      ∀ t : AbsTensorData, Clip.type_transfer st t = (st, t)) := by
  refine ⟨⟨rfl, rfl, rfl⟩, ?_, ?_, ?_⟩
  · intro t ht
    simp only [Clip.type_transfer, Clip.init]
    rw [if_pos ht]
    norm_num
  · intro t ht
    have hnf : t.dtype ∉ DTYPE_FLOATS := by
      simp only [DTYPE_INTS, List.mem_cons, List.not_mem_nil, or_false] at ht
      rcases ht with h | h <;> simp [DTYPE_FLOATS, h]
    simp only [Clip.type_transfer, Clip.init]
    rw [if_neg hnf]
    norm_num
  · intro st b hb t
    simp [Clip.type_transfer, hb]

/-- C10 (witness): the statement applied at a float32 input, an int64
input, and a state whose bias is already resolved to `5`. -/
theorem clip_bounds_resolve_once_witness :
    ((({ shape := [2], dtype := DType.float32 } : AbsTensorData).dtype ∈ DTYPE_FLOATS) ∧
     (({ shape := [2], dtype := DType.int64 } : AbsTensorData).dtype ∈ DTYPE_INTS) ∧
     (({ min := 0, max := 0, bias := some 5 } : ClipState).bias = some 5)) ∧
    ((Clip.type_transfer Clip.init { shape := [2], dtype := DType.float32 }).1
        = { min := -(3 / 2 : ℚ), max := 3 / 2, bias := some (1 / 2) } ∧
     (Clip.type_transfer Clip.init { shape := [2], dtype := DType.int64 }).1
        = { min := -1, max := 1, bias := some 0 } ∧
     Clip.type_transfer { min := 0, max := 0, bias := some 5 }
        { shape := [2], dtype := DType.bool }
        = ({ min := 0, max := 0, bias := some 5 }, { shape := [2], dtype := DType.bool })) :=
  ⟨⟨by decide, by decide, rfl⟩,
   ⟨clip_bounds_resolve_once.2.1 _ (by decide),
    clip_bounds_resolve_once.2.2.1 _ (by decide),
    clip_bounds_resolve_once.2.2.2 _ 5 rfl _⟩⟩

/-- C7: `Reshape._requires` chooses the group count from `NNSMITH_GRES`:
`"5"` gives `ng = 1`; `"3"` gives `ng = min(src_rank, dst_rank)`; `"4"`
(the default) gives some `ng` in `[1, min(src_rank, dst_rank)]` (the
support of the weighted draw); any other value raises a fatal `ValueError`
rather than a recoverable constraint violation. -/
theorem reshape_gres_ng_cases (src dst choice : ℕ)
    (hs : 1 ≤ src) (hd : 1 ≤ dst)
    (hc : 1 ≤ choice ∧ choice ≤ min src dst) :
    reshape_gres_ng ("5") src dst choice = .ok 1 ∧
    reshape_gres_ng ("3") src dst choice = .ok (min src dst) ∧
    (∃ ng, reshape_gres_ng ("4") src dst choice = .ok ng ∧
      1 ≤ ng ∧ ng ≤ min src dst) ∧
    (∀ g : String, g ≠ ("3") → g ≠ ("4") → g ≠ ("5") →
      reshape_gres_ng g src dst choice = .error (.valueError g) ∧
      (PyErr.valueError g).isFatal = true) := by
  have hsrc : (if src = 0 then 1 else src) = src := by
    rw [if_neg (by omega)]
  have hdst : (if dst = 0 then 1 else dst) = dst := by
    rw [if_neg (by omega)]
  refine ⟨?_, ?_, ?_, ?_⟩
  · simp [reshape_gres_ng]
  · simp [reshape_gres_ng, hsrc, hdst]
  · exact ⟨choice, by simp [reshape_gres_ng], hc.1, hc.2⟩
  · intro g h3 h4 h5
    refine ⟨?_, rfl⟩
    simp [reshape_gres_ng, h3, h4, h5]

/-- C7 (witness): the statement applied at source rank 2, target rank 3
and drawn group count 1 (and, for the error case, the unrecognized
configuration value `"2"`). -/
theorem reshape_gres_ng_cases_witness :
    (1 ≤ 2 ∧ 1 ≤ 3 ∧ 1 ≤ 1 ∧ 1 ≤ min 2 3) ∧
    (reshape_gres_ng ("5") 2 3 1 = .ok 1 ∧
     reshape_gres_ng ("3") 2 3 1 = .ok (min 2 3) ∧
     (∃ ng, reshape_gres_ng ("4") 2 3 1 = .ok ng ∧ 1 ≤ ng ∧ ng ≤ min 2 3) ∧
     (reshape_gres_ng ("2") 2 3 1 = .error (.valueError ("2")) ∧
      (PyErr.valueError ("2")).isFatal = true)) :=
  ⟨by omega,
   ⟨(reshape_gres_ng_cases 2 3 1 (by omega) (by omega) (by omega)).1,
    (reshape_gres_ng_cases 2 3 1 (by omega) (by omega) (by omega)).2.1,
    (reshape_gres_ng_cases 2 3 1 (by omega) (by omega) (by omega)).2.2.1,
    (reshape_gres_ng_cases 2 3 1 (by omega) (by omega) (by omega)).2.2.2 ("2")
      (by decide) (by decide) (by decide)⟩⟩

/-- C9: for a `Pool2d` with concrete attributes and a concrete rank-4 input
with positive dimensions, if every constraint produced by `Pool2d._requires`
holds then both spatial output sizes inferred by `Pool2d._type_transfer`
are at least 1. -/
theorem pool2d_output_spatial_positive (shape : List ℤ)
    (kernel_h_size kernel_w_size stride padding : ℤ)
    (hlen : shape.length = 4) (hpos : ∀ d ∈ shape, 1 ≤ d)
    (hreq : ∀ p ∈ Pool2d.requires shape kernel_h_size kernel_w_size stride padding, p) :
    1 ≤ (Pool2d.type_transfer shape kernel_h_size kernel_w_size stride padding).getD 2 0 ∧
    1 ≤ (Pool2d.type_transfer shape kernel_h_size kernel_w_size stride padding).getD 3 0 := by
  simp only [Pool2d.requires, List.mem_cons, List.not_mem_nil, or_false,
    forall_eq_or_imp, forall_eq] at hreq
  obtain ⟨-, -, hkh, hkw, hstride, -, -, -, -, -, -⟩ := hreq
  simp only [nnsmith_add, nnsmith_sub] at hkh hkw
  have hs0 : (0 : ℤ) ≤ stride := by omega
  have hv2 : (Pool2d.type_transfer shape kernel_h_size kernel_w_size stride padding).getD 2 0
      = (shape.getD 2 0 - kernel_h_size + 2 * padding).ediv stride + 1 := rfl
  have hv3 : (Pool2d.type_transfer shape kernel_h_size kernel_w_size stride padding).getD 3 0
      = (shape.getD 3 0 - kernel_w_size + 2 * padding).ediv stride + 1 := rfl
  constructor
  · rw [hv2]
    have : (0 : ℤ) ≤ (shape.getD 2 0 - kernel_h_size + 2 * padding).ediv stride :=
      Int.ediv_nonneg (by omega) hs0
    omega
  · rw [hv3]
    have : (0 : ℤ) ≤ (shape.getD 3 0 - kernel_w_size + 2 * padding).ediv stride :=
      Int.ediv_nonneg (by omega) hs0
    omega

/-- C9 (witness): the statement applied to a `[1,1,3,3]` input with a 1x1
kernel, stride 1 and padding 0, whose constraint list holds. -/
theorem pool2d_output_spatial_positive_witness :
    (([1, 1, 3, 3] : List ℤ).length = 4 ∧
     (∀ d ∈ ([1, 1, 3, 3] : List ℤ), 1 ≤ d) ∧
     (∀ p ∈ Pool2d.requires [1, 1, 3, 3] 1 1 1 0, p)) ∧
    (1 ≤ (Pool2d.type_transfer [1, 1, 3, 3] 1 1 1 0).getD 2 0 ∧
     1 ≤ (Pool2d.type_transfer [1, 1, 3, 3] 1 1 1 0).getD 3 0) :=
  ⟨⟨rfl, by decide,
    by
      intro p hp
      simp only [Pool2d.requires, Pool2d.flops, Pool2d.type_transfer, nelement,
        FLOPS_LIM, nnsmith_add, nnsmith_sub, nnsmith_mul, nnsmith_div,
        List.mem_cons, List.not_mem_nil, or_false] at hp
      rcases hp with rfl | rfl | rfl | rfl | rfl | rfl | rfl | rfl | rfl | rfl | rfl <;>
        decide⟩,
   pool2d_output_spatial_positive [1, 1, 3, 3] 1 1 1 0 rfl (by decide)
     (by
      intro p hp
      simp only [Pool2d.requires, Pool2d.flops, Pool2d.type_transfer, nelement,
        FLOPS_LIM, nnsmith_add, nnsmith_sub, nnsmith_mul, nnsmith_div,
        List.mem_cons, List.not_mem_nil, or_false] at hp
      rcases hp with rfl | rfl | rfl | rfl | rfl | rfl | rfl | rfl | rfl | rfl | rfl <;>
        decide)⟩

/-- Helper: `List.set` leaves positions other than the written one
unchanged, also through the defaulting getter. -/
theorem getD_set_of_ne (l : List ℤ) (i j : ℕ) (a : ℤ) (h : i ≠ j) :
    (l.set i a).getD j 0 = l.getD j 0 := by
  by_cases hj : j < l.length
  · rw [List.getD_eq_getElem _ _ (by simpa using hj), List.getD_eq_getElem _ _ hj]
    exact List.getElem_set_ne h _
  · have h1 : l[j]? = none := List.getElem?_eq_none (by omega)
    have h2 : (l.set i a)[j]? = none := List.getElem?_eq_none (by simp; omega)
    rw [List.getD_eq_getElem?_getD, List.getD_eq_getElem?_getD, h1, h2]

/-- Helper: for a positive divisor and non-negative dividend, the
`(a + (s-1)) / s` trick computes the rational ceiling of `a / s` under
Euclidean (SMT-LIB) integer division. -/
theorem ediv_add_sub_one_eq_ceil (a s : ℤ) (hs : 0 < s) (ha : 0 ≤ a) :
    (a + (s - 1)).ediv s = ⌈(a : ℚ) / (s : ℚ)⌉ := by
  have hkey : s * ((a + (s - 1)).ediv s) + (a + (s - 1)).emod s = a + (s - 1) :=
    Int.ediv_add_emod _ _
  have hr0 : 0 ≤ (a + (s - 1)).emod s := Int.emod_nonneg _ (ne_of_gt hs)
  have hrs : (a + (s - 1)).emod s < s := Int.emod_lt_of_pos _ hs
  have hsQ : (0 : ℚ) < (s : ℚ) := by exact_mod_cast hs
  symm
  rw [Int.ceil_eq_iff]
  constructor
  · rw [lt_div_iff hsQ]
    have h1 : ((a + (s - 1)).ediv s - 1) * s < a := by nlinarith
    exact_mod_cast h1
  · rw [div_le_iff hsQ]
    have h2 : a ≤ (a + (s - 1)).ediv s * s := by nlinarith
    exact_mod_cast h2

/-- C5: for a resolved `Slice` on a concrete input of rank at least 1
satisfying all of `Slice._requires`, the inferred output shape equals the
input shape except at the chosen axis, whose size
`((end - start) + (step - 1)) / step` (with `end` replaced by the input
size at that axis when it is the `INT_MAX` sentinel) equals
`ceil((end - start) / step)`. -/
theorem slice_type_transfer_ceil (shape : List ℤ) (axis : ℕ)
    (start stop step : ℤ) (haxis : axis < shape.length)
    (hreq : ∀ p ∈ Slice.requires shape axis start stop step, p) :
    Slice.type_transfer shape axis start stop step
      = shape.set axis
          ⌈((((if stop = Slice.INT_MAX then shape.getD axis 0 else stop) - start : ℤ)) : ℚ)
            / ((step : ℤ) : ℚ)⌉ ∧
    (Slice.type_transfer shape axis start stop step).length = shape.length ∧
    (∀ i, i ≠ axis →
      (Slice.type_transfer shape axis start stop step).getD i 0 = shape.getD i 0) := by
  by_cases hstop : stop = Slice.INT_MAX
  · simp only [Slice.requires, hstop, if_true, List.append_nil, List.nil_append,
      List.cons_append, List.mem_cons, List.not_mem_nil, or_false,
      forall_eq_or_imp, forall_eq, if_pos] at hreq
    obtain ⟨⟨h1, h2⟩, h3, h4⟩ := hreq
    have htt : Slice.type_transfer shape axis start stop step
        = shape.set axis
            (((shape.getD axis 0 - start) + (step - 1)).ediv step) := by
      simp [Slice.type_transfer, nnsmith_div, nnsmith_add, nnsmith_sub, hstop]
    refine ⟨?_, ?_, ?_⟩
    · rw [if_pos hstop, htt,
        ediv_add_sub_one_eq_ceil _ _ (by omega) (by omega)]
    · rw [htt]; exact List.length_set shape axis _
    · intro i hi
      rw [htt]
      exact getD_set_of_ne shape axis i _ (fun h => hi h.symm)
  · simp only [Slice.requires, hstop, if_false, List.append_nil, List.nil_append,
      List.cons_append, List.mem_cons, List.not_mem_nil, or_false,
      forall_eq_or_imp, forall_eq, if_neg] at hreq
    obtain ⟨⟨h1, h2⟩, ⟨h5, h6⟩, h7, h3, h4⟩ := hreq
    have htt : Slice.type_transfer shape axis start stop step
        = shape.set axis (((stop - start) + (step - 1)).ediv step) := by
      simp [Slice.type_transfer, nnsmith_div, nnsmith_add, nnsmith_sub, hstop]
    refine ⟨?_, ?_, ?_⟩
    · rw [if_neg hstop, htt,
        ediv_add_sub_one_eq_ceil _ _ (by omega) (by omega)]
    · rw [htt]; exact List.length_set shape axis _
    · intro i hi
      rw [htt]
      exact getD_set_of_ne shape axis i _ (fun h => hi h.symm)

/-- C5 (witness): the statement applied to `shape=[5]`, `axis=0`,
`start=1`, `end=4`, `step=2`, whose legality constraints hold; the output
size is `ceil(3/2) = 2`. -/
theorem slice_type_transfer_ceil_witness :
    ((0 : ℕ) < ([5] : List ℤ).length ∧
     (∀ p ∈ Slice.requires [5] 0 1 4 2, p)) ∧
    (Slice.type_transfer [5] 0 1 4 2
        = ([5] : List ℤ).set 0
            ⌈((((if (4 : ℤ) = Slice.INT_MAX then ([5] : List ℤ).getD 0 0 else 4) - 1 : ℤ)) : ℚ)
              / (((2 : ℤ)) : ℚ)⌉ ∧
     (Slice.type_transfer [5] 0 1 4 2).length = ([5] : List ℤ).length ∧
     (∀ i, i ≠ 0 →
       (Slice.type_transfer [5] 0 1 4 2).getD i 0 = ([5] : List ℤ).getD i 0)) :=
  ⟨⟨by decide,
    by
      intro p hp
      simp only [Slice.requires, Slice.INT_MAX] at hp
      norm_num at hp
      exact hp⟩,
   slice_type_transfer_ceil [5] 0 1 4 2 (by decide)
     (by
      intro p hp
      simp only [Slice.requires, Slice.INT_MAX] at hp
      norm_num at hp
      exact hp)⟩

/-- Helper: copying allocates forward, never lowering the allocation
frontier. -/
theorem allocCopies_next_mono (ids : List ℕ) (h : Heap) :
    h.next ≤ (allocCopies h ids).1.next := by
  induction ids generalizing h with
  | nil => exact le_refl _
  | cons id rest ih =>
    simp only [allocCopies]
    exact le_trans (Nat.le_succ _)
      (ih { data := Function.update h.data h.next (h.data id), next := h.next + 1 })

/-- Helper: copying only writes at fresh addresses, so every cell below
the allocation frontier keeps its contents. -/
theorem allocCopies_data_lt (ids : List ℕ) (h : Heap) (j : ℕ)
    (hj : j < h.next) :
    (allocCopies h ids).1.data j = h.data j := by
  induction ids generalizing h with
  | nil => rfl
  | cons id rest ih =>
    simp only [allocCopies]
    rw [ih _ (by simp; omega)]
    simp only [Function.update_apply]
    rw [if_neg (by omega)]

/-- Helper: every address returned by the copier is at or above the old
allocation frontier (it is a fresh object, distinct from all live ones). -/
theorem allocCopies_mem_ge (ids : List ℕ) (h : Heap) (c : ℕ)
    (hc : c ∈ (allocCopies h ids).2) : h.next ≤ c := by
  induction ids generalizing h with
  | nil => simp [allocCopies] at hc
  | cons id rest ih =>
    simp only [allocCopies, List.mem_cons] at hc
    rcases hc with rfl | hc
    · exact le_refl _
    · exact le_trans (Nat.le_succ _) (ih _ hc)

/-- Helper: writing back the callee's mutations touches only the cells it
was handed. -/
theorem writeAll_data_of_notmem (cs : List ℕ) (vs : List AbsTensorData)
    (h : Heap) (j : ℕ) (hj : j ∉ cs) :
    (writeAll h cs vs).data j = h.data j := by
  induction cs generalizing h vs with
  | nil => cases vs <;> rfl
  | cons c rest ih =>
    cases vs with
    | nil => rfl
    | cons v vrest =>
      simp only [List.mem_cons, not_or] at hj
      simp only [writeAll]
      rw [ih _ _ hj.2]
      simp only [Function.update_apply]
      rw [if_neg hj.1]

/-- C6: the public entry points `checked_type_transfer` (via
`check_shape_fn`) and `checked_requires` (via `check_require_fn`) leave
every caller-supplied input tensor object unchanged, whatever in-place
mutations the operator's internal rule performs: the rules only ever see
the defensive deep copies, which live at fresh addresses. -/
theorem checked_entry_points_preserve_inputs (inp_ranks out_ranks : ℕ)
    (rule_t : InternalRule (List AbsTensorData)) (rule_r : InternalRule (List ℕ))
    (h : Heap) (ids : List ℕ) (i : ℕ) (hmem : i ∈ ids) (hlive : i < h.next) :
    (wrapper_check_shape_fn inp_ranks out_ranks rule_t h ids).1.data i = h.data i ∧
    (wrapper_check_require_fn inp_ranks rule_r h ids).1.data i = h.data i := by
  have hfresh : i ∉ (allocCopies h ids).2 := fun hin =>
    absurd (allocCopies_mem_ge ids h i hin) (by omega)
  constructor
  · simp only [wrapper_check_shape_fn]
    split
    · rfl
    · split
      · rw [writeAll_data_of_notmem _ _ _ _ hfresh,
          allocCopies_data_lt _ _ _ hlive]
      · rw [writeAll_data_of_notmem _ _ _ _ hfresh,
          allocCopies_data_lt _ _ _ hlive]
  · simp only [wrapper_check_require_fn]
    split
    · rfl
    · rw [writeAll_data_of_notmem _ _ _ _ hfresh,
        allocCopies_data_lt _ _ _ hlive]

/-- C6 (witness): the statement applied to a one-object heap and rules
that do mutate every tensor handed to them. -/
theorem checked_entry_points_preserve_inputs_witness :
    ((0 : ℕ) ∈ [(0 : ℕ)] ∧ (0 : ℕ) < c6_heap.next) ∧
    ((wrapper_check_shape_fn 1 1 c6_rule_shape c6_heap [0]).1.data 0
        = c6_heap.data 0 ∧
     (wrapper_check_require_fn 1 c6_rule_req c6_heap [0]).1.data 0
        = c6_heap.data 0) :=
  ⟨⟨by decide, by decide⟩,
   checked_entry_points_preserve_inputs 1 1 c6_rule_shape c6_rule_req c6_heap
     [0] 0 (by decide) (by decide)⟩

/-- Helper: a function with non-decreasing steps below `k` is
non-decreasing from `0` to `k`. -/
theorem chain_mono_of_step (b : ℕ → ℕ) (k : ℕ)
    (h : ∀ i, i < k → b i ≤ b (i + 1)) : b 0 ≤ b k := by
  induction k with
  | zero => exact le_refl _
  | succ k ih =>
    exact le_trans (ih (fun i hi => h i (Nat.lt_succ_of_lt hi)))
      (h k (Nat.lt_succ_self k))

/-- Helper: consecutive `range'` segments with telescoping boundaries
flatten to one contiguous range. -/
theorem flatten_map_range_segments (b : ℕ → ℕ) (k : ℕ)
    (hmono : ∀ i, i < k → b i ≤ b (i + 1)) :
    ((List.range k).map (fun i => List.range' (b i) (b (i + 1) - b i))).flatten
      = List.range' (b 0) (b k - b 0) := by
  induction k with
  | zero => simp
  | succ k ih =>
    have hm : ∀ i, i < k → b i ≤ b (i + 1) :=
      fun i hi => hmono i (Nat.lt_succ_of_lt hi)
    have h0k : b 0 ≤ b k := chain_mono_of_step b k hm
    have hk1 : b k ≤ b (k + 1) := hmono k (Nat.lt_succ_self k)
    rw [List.range_succ, List.map_append, List.flatten_append, ih hm]
    simp only [List.map_cons, List.map_nil, List.flatten_cons, List.flatten_nil,
      List.append_nil]
    have happ := List.range'_append (b 0) (b k - b 0) (b (k + 1) - b k) 1
    rw [show b 0 + 1 * (b k - b 0) = b k by omega] at happ
    rw [show b (k + 1) - b k + (b k - b 0) = b (k + 1) - b 0 by omega] at happ
    exact happ

/-- Helper: reading a list back at the indices `0, ..., length-1`
reproduces the list. -/
theorem map_getD_range {α : Type} (l : List α) (d : α) :
    (List.range l.length).map (fun j => l.getD j d) = l := by
  apply List.ext_getElem
  · simp
  · intro i h1 h2
    simp only [List.getElem_map, List.getElem_range]
    rw [List.getD_eq_getElem l d h2]

/-- C4: for all `1 ≤ k ≤ n`, whatever the `k-1` values drawn in
`[0, n-k]` and whatever permutation of `range(n)` the shuffle produced,
`random_group(n, k)` returns exactly `k` groups that are each non-empty,
pairwise disjoint, and together cover exactly the index set
`{0, ..., n-1}`. -/
theorem random_group_partition (n k : ℕ) (draws perm : List ℕ)
    (hk1 : 1 ≤ k) (hkn : k ≤ n) (hlen : draws.length = k - 1)
    (hbound : ∀ d ∈ draws, d ≤ n - k) (hperm : perm.Perm (List.range n)) :
    (random_group n k draws perm).length = k ∧
    (∀ g ∈ random_group n k draws perm, g ≠ []) ∧
    List.Pairwise List.Disjoint (random_group n k draws perm) ∧
    (∀ x, (∃ g ∈ random_group n k draws perm, x ∈ g) ↔ x < n) := by
  set s : List ℕ := draws.mergeSort (fun a b => a ≤ b) with hs
  set xs : List ℕ := 0 :: (s ++ [n - k]) with hxs
  set b : ℕ → ℕ := fun i => xs.getD i 0 + i with hb
  have hgroups : random_group n k draws perm
      = (List.range k).map (fun i =>
          (List.range' (b i) (b (i + 1) - b i)).map (fun j => perm.getD j 0)) := rfl
  have hslen : s.length = k - 1 := (List.mergeSort_perm draws _).length_eq.trans hlen
  have hxslen : xs.length = k + 1 := by
    rw [hxs]
    simp [hslen]
    omega
  have hsorted : List.Sorted (fun a c => a ≤ c) s := List.sorted_mergeSort' draws
  have hmem_s : ∀ x ∈ s, x ≤ n - k := fun x hx =>
    hbound x ((List.mergeSort_perm draws _).mem_iff.mp hx)
  have hpair : List.Pairwise (fun a c => a ≤ c) xs := by
    rw [hxs]
    refine List.pairwise_cons.mpr ⟨fun a _ => Nat.zero_le a, ?_⟩
    refine List.pairwise_append.mpr ⟨hsorted, List.pairwise_singleton _ _, ?_⟩
    intro a ha c hc
    simp only [List.mem_singleton] at hc
    subst hc
    exact hmem_s a ha
  have hstep : ∀ i, i < k → b i < b (i + 1) := by
    intro i hi
    have h1 : i < xs.length := by omega
    have h2 : i + 1 < xs.length := by omega
    have hle : xs.getD i 0 ≤ xs.getD (i + 1) 0 := by
      rw [List.getD_eq_getElem xs 0 h1, List.getD_eq_getElem xs 0 h2]
      exact List.pairwise_iff_getElem.mp hpair i (i + 1) h1 h2 (Nat.lt_succ_self i)
    simp only [hb]
    omega
  have hmono : ∀ i, i < k → b i ≤ b (i + 1) := fun i hi => le_of_lt (hstep i hi)
  have hb0 : b 0 = 0 := by simp [hb, hxs]
  have hbk : b k = n := by
    have hsplit : xs = ([0] ++ s) ++ [n - k] := by simp [hxs]
    have hgk : xs.getD k 0 = n - k := by
      rw [hsplit, List.getD_append_right _ _ _ _ (by simp [hslen]; omega)]
      have : k - ([0] ++ s).length = 0 := by simp [hslen]; omega
      rw [this]
      rfl
    simp only [hb, hgk]
    omega
  have hplen : perm.length = n := hperm.length_eq.trans (List.length_range n)
  have hflat : (random_group n k draws perm).flatten = perm := by
    rw [hgroups]
    have hcomp : (List.range k).map (fun i =>
          (List.range' (b i) (b (i + 1) - b i)).map (fun j => perm.getD j 0))
        = (List.range k).map
            (List.map (fun j => perm.getD j 0) ∘ fun i => List.range' (b i) (b (i + 1) - b i)) := rfl
    rw [hcomp, ← List.map_map, ← List.map_flatten,
      flatten_map_range_segments b k hmono, hb0, hbk, Nat.sub_zero,
      ← List.range_eq_range', ← hplen, map_getD_range]
  have hflatperm : (random_group n k draws perm).flatten.Perm (List.range n) := by
    rw [hflat]
    exact hperm
  have hnodup : (random_group n k draws perm).flatten.Nodup :=
    hflatperm.nodup_iff.mpr (List.nodup_range n)
  refine ⟨?_, ?_, ?_, ?_⟩
  · rw [hgroups]
    simp
  · intro g hg
    rw [hgroups] at hg
    obtain ⟨i, hi, rfl⟩ := List.mem_map.mp hg
    have hik : i < k := List.mem_range.mp hi
    have hlt := hstep i hik
    intro hcon
    rw [List.map_eq_nil, List.range'_eq_nil] at hcon
    omega
  · exact (List.nodup_flatten.mp hnodup).2
  · intro x
    constructor
    · rintro ⟨g, hg, hx⟩
      have hmemf : x ∈ (random_group n k draws perm).flatten :=
        List.mem_flatten.mpr ⟨g, hg, hx⟩
      rw [hflat] at hmemf
      exact List.mem_range.mp (hperm.mem_iff.mp hmemf)
    · intro hx
      have hmemp : x ∈ perm := hperm.mem_iff.mpr (List.mem_range.mpr hx)
      have : x ∈ (random_group n k draws perm).flatten := by
        rw [hflat]
        exact hmemp
      exact List.mem_flatten.mp this

/-- C4 (witness): the statement applied at `n = 3`, `k = 2`, the single
draw `1` and the shuffled permutation `[2, 0, 1]` (the resulting groups
are `[[2, 0], [1]]`). -/
theorem random_group_partition_witness :
    (1 ≤ 2 ∧ 2 ≤ 3 ∧ ([1] : List ℕ).length = 2 - 1 ∧
     (∀ d ∈ ([1] : List ℕ), d ≤ 3 - 2) ∧
     ([2, 0, 1] : List ℕ).Perm (List.range 3)) ∧
    ((random_group 3 2 [1] [2, 0, 1]).length = 2 ∧
     (∀ g ∈ random_group 3 2 [1] [2, 0, 1], g ≠ []) ∧
     List.Pairwise List.Disjoint (random_group 3 2 [1] [2, 0, 1]) ∧
     (∀ x, (∃ g ∈ random_group 3 2 [1] [2, 0, 1], x ∈ g) ↔ x < 3)) :=
  ⟨⟨by decide, by decide, by decide, by decide, by decide⟩,
   random_group_partition 3 2 [1] [2, 0, 1] (by decide) (by decide) (by decide)
     (by decide) (by decide)⟩
